import Mathlib

/-!
Shallow embedding of `openmp_multi_cuda.c` (MSU CUDA course, multi-GPU OpenMP
stencil driver).  The external CUDA driver/runtime calls and the stencil
primitives are modelled by an outcome oracle `Env` giving the status each call
returns; the program is embedded as functions from the oracle to an exit
status together with a trace of events (external calls, stdout lines, stderr
lines).  The OpenMP work-sharing constructs are embedded sequentially: the
device fan-out runs devices in increasing index order, followed by the host
reference section, followed by the join check - faithful to the source's
fork/join structure (both sections complete before the per-device status
inspection at lines 227-236).

The numeric contents of the host workspace and the validator arithmetic are
modelled separately over exact rationals (the float cells of the source),
since the claims about them concern copying and comparison order, not
floating-point rounding.
-/

namespace OpenmpMultiCuda

/-- Global tick count (line 42 of the source, never mutated). -/
def nticks : Nat := 10

/-- Grid width (line 45). -/
def nx : Nat := 128

/-- Grid height (line 45). -/
def ny : Nat := 128

/-- Outcome oracle for the external CUDA driver / runtime / stencil calls.
Each field gives the status the corresponding call returns (0 = success);
per-step calls are indexed by device and tick. -/
structure Env where
  devCountStat : Nat
  devCount : Nat
  nthreads : Nat
  devGet : Nat → Nat
  ctxCreate : Nat → Nat
  mallocIn : Nat → Nat
  mallocOut : Nat → Nat
  h2d : Nat → Nat
  popInit : Nat → Nat
  pushStep : Nat → Nat → Nat
  gpuStat : Nat → Nat → Nat
  popStep : Nat → Nat → Nat
  cpuStat : Nat → Nat
  pushFin : Nat → Nat
  d2h : Nat → Nat
  freeIn : Nat → Nat
  freeOut : Nat → Nat
  destroy : Nat → Nat

/-- The stdout lines the program can print, carrying the formatted values. -/
inductive OutLine where
  | found : Nat → OutLine
  | threads : Nat → OutLine
  | initialized : Nat → OutLine
  | completed : Nat → Nat → OutLine
  | deinitialized : Nat → OutLine
  | result : Nat → OutLine
deriving DecidableEq

/-- A stderr line: the fixed operation text of the format string, plus the
device index and status *actually formatted by the format string* (a `%d`
specifier present for them).  An argument passed to `fprintf` without a
matching specifier is not part of the output line. -/
structure ErrLine where
  op : String
  device : Option Nat
  status : Option Nat
deriving DecidableEq

def opDevCount : String := "Cannot get the cuda device count"

def opDevGet : String := "Cannot get CUDA device by index"

def opCtxCreate : String := "Cannot create a context"

def opMallocIn : String := "Cannot allocate CUDA input buffer"

def opMallocOut : String := "Cannot allocate CUDA output buffer"

def opH2D : String := "Cannot copy input data to CUDA buffer"

def opPushCtx : String := "Cannot push current context"

def opGpuKernel : String := "Cannot execute pattern 2d"

def opPopCtx : String := "Cannot pop current context"

def opThreadFunc : String := "Cannot execute thread function"

def opD2H : String := "Cannot copy output data from CUDA buffer"

def opFreeIn : String := "Cannot release input buffer"

def opFreeOut : String := "Cannot release output buffer"

def opDestroy : String := "Cannot destroy context"

/-- Trace events: external calls (with device / tick), stdout and stderr. -/
inductive Ev where
  | devCountCall : Ev
  | hostAlloc : Nat → Ev
  | devGetCall : Nat → Ev
  | ctxCreateCall : Nat → Ev
  | mallocInCall : Nat → Ev
  | mallocOutCall : Nat → Ev
  | h2dCall : Nat → Ev
  | popInitCall : Nat → Ev
  | pushStepCall : Nat → Nat → Ev
  | gpuKernelCall : Nat → Nat → Ev
  | popStepCall : Nat → Nat → Ev
  | cpuKernelCall : Nat → Ev
  | pushFinCall : Nat → Ev
  | d2hCall : Nat → Ev
  | freeInCall : Nat → Ev
  | freeOutCall : Nat → Ev
  | destroyCall : Nat → Ev
  | validateCall : Nat → Ev
  | out : OutLine → Ev
  | err : ErrLine → Ev
deriving DecidableEq

/-- The thread configuration structure (lines 30-40).  The device buffer
pointers are abstracted to the ping-pong parity `inIsA` (which of the two
device buffers `in_dev` currently denotes); `status` starts at 0 (the source
leaves it to the first assignment at line 210 before any read). -/
structure Config where
  idevice : Nat
  status : Nat
  step : Nat
  inIsA : Bool
deriving DecidableEq

/-- `thread_func` (lines 48-89): push the device context, run the GPU stencil,
increment the step counter, pop the context, swap the ping-pong buffers, print
the completed-step line.  Returns the updated config, the return status, and
the trace of the invocation. -/
def thread_func (env : Env) (t : Nat) (config : Config) : Config × Nat × List Ev :=
  let idevice := config.idevice
  if env.pushStep idevice t ≠ 0 then
    (config, env.pushStep idevice t,
      [Ev.pushStepCall idevice t,
       Ev.err ⟨opPushCtx, some idevice, some (env.pushStep idevice t)⟩])
  else if env.gpuStat idevice t ≠ 0 then
    (config, env.gpuStat idevice t,
      [Ev.pushStepCall idevice t, Ev.gpuKernelCall idevice t,
       Ev.err ⟨opGpuKernel, some idevice, some (env.gpuStat idevice t)⟩])
  else
    let config := { config with step := config.step + 1 }
    if env.popStep idevice t ≠ 0 then
      (config, env.popStep idevice t,
        [Ev.pushStepCall idevice t, Ev.gpuKernelCall idevice t, Ev.popStepCall idevice t,
         Ev.err ⟨opPopCtx, some idevice, some (env.popStep idevice t)⟩])
    else
      let config := { config with inIsA := !config.inIsA }
      (config, 0,
        [Ev.pushStepCall idevice t, Ev.gpuKernelCall idevice t, Ev.popStepCall idevice t,
         Ev.out (OutLine.completed idevice config.step)])

/-- The device fan-out section (lines 206-211): run `thread_func` on each
config and store its return value in the config's `status` field. -/
def gpuSection (env : Env) (t : Nat) : List Config → List Config × List Ev
  | [] => ([], [])
  | c :: rest =>
    let r := thread_func env t c
    let rr := gpuSection env t rest
    ({ r.1 with status := r.2.1 } :: rr.1, r.2.2 ++ rr.2)

/-- The per-device status inspection at the tick join (lines 227-236): scan
the configs in increasing index order; on the first non-zero status print the
thread-function stderr line and abort with that status. -/
def joinCheck (i : Nat) : List Config → Option Nat × List Ev
  | [] => (none, [])
  | c :: rest =>
    if c.status ≠ 0 then
      (some c.status, [Ev.err ⟨opThreadFunc, some i, some c.status⟩])
    else joinCheck (i + 1) rest

/-- One tick of the step loop (lines 197-237): device fan-out, host reference
section (whose return value the source discards, line 219), then the join. -/
def tickOnce (env : Env) (t : Nat) (cs : List Config) : List Config × List Ev × Option Nat :=
  let g := gpuSection env t cs
  let j := joinCheck 0 g.1
  (g.1, g.2 ++ [Ev.cpuKernelCall t] ++ j.2, j.1)

/-- The step loop: `n` remaining ticks starting at tick `t`; stops at the
first aborting join. -/
def tickLoop (env : Env) : Nat → Nat → List Config → List Config × List Ev × Option Nat
  | _, 0, cs => (cs, [], none)
  | t, n + 1, cs =>
    let o := tickOnce env t cs
    match o.2.2 with
    | some s => (o.1, o.2.1, some s)
    | none =>
      let rest := tickLoop env (t + 1) n o.1
      (rest.1, o.2.1 ++ rest.2.1, rest.2.2)

/-- Per-device initialization (lines 131-192): get handle, create context,
allocate the two device buffers, copy the host tile in, pop the context,
print the initialized line.  A failing call aborts with its status. -/
def initDevice (env : Env) (d : Nat) : Config × List Ev × Option Nat :=
  let c : Config := { idevice := d, status := 0, step := 0, inIsA := true }
  if env.devGet d ≠ 0 then
    (c, [Ev.devGetCall d, Ev.err ⟨opDevGet, some d, some (env.devGet d)⟩],
      some (env.devGet d))
  else if env.ctxCreate d ≠ 0 then
    (c, [Ev.devGetCall d, Ev.ctxCreateCall d,
         Ev.err ⟨opCtxCreate, some d, some (env.ctxCreate d)⟩],
      some (env.ctxCreate d))
  else if env.mallocIn d ≠ 0 then
    (c, [Ev.devGetCall d, Ev.ctxCreateCall d, Ev.mallocInCall d,
         Ev.err ⟨opMallocIn, some d, some (env.mallocIn d)⟩],
      some (env.mallocIn d))
  else if env.mallocOut d ≠ 0 then
    (c, [Ev.devGetCall d, Ev.ctxCreateCall d, Ev.mallocInCall d, Ev.mallocOutCall d,
         Ev.err ⟨opMallocOut, some d, some (env.mallocOut d)⟩],
      some (env.mallocOut d))
  else if env.h2d d ≠ 0 then
    (c, [Ev.devGetCall d, Ev.ctxCreateCall d, Ev.mallocInCall d, Ev.mallocOutCall d,
         Ev.h2dCall d, Ev.err ⟨opH2D, some d, some (env.h2d d)⟩],
      some (env.h2d d))
  else if env.popInit d ≠ 0 then
    (c, [Ev.devGetCall d, Ev.ctxCreateCall d, Ev.mallocInCall d, Ev.mallocOutCall d,
         Ev.h2dCall d, Ev.popInitCall d,
         Ev.err ⟨opPopCtx, some d, some (env.popInit d)⟩],
      some (env.popInit d))
  else
    (c, [Ev.devGetCall d, Ev.ctxCreateCall d, Ev.mallocInCall d, Ev.mallocOutCall d,
         Ev.h2dCall d, Ev.popInitCall d, Ev.out (OutLine.initialized d)],
      none)

/-- The initialization loop over devices `d, d+1, ...` (`n` remaining). -/
def initFrom (env : Env) : Nat → Nat → List Config × List Ev × Option Nat
  | _, 0 => ([], [], none)
  | d, n + 1 =>
    let r := initDevice env d
    match r.2.2 with
    | some s => ([], r.2.1, some s)
    | none =>
      let rest := initFrom env (d + 1) n
      (r.1 :: rest.1, r.2.1 ++ rest.2.1, rest.2.2)

/-- Per-device finalization (lines 247-294): push the context, copy the result
back, free both buffers, destroy the context, print the deinitialized line.
Note the destroy failure line (line 289): its format string formats only the
device index, so the status argument is not part of the output. -/
def finDevice (env : Env) (d : Nat) : List Ev × Option Nat :=
  if env.pushFin d ≠ 0 then
    ([Ev.pushFinCall d, Ev.err ⟨opPushCtx, some d, some (env.pushFin d)⟩],
      some (env.pushFin d))
  else if env.d2h d ≠ 0 then
    ([Ev.pushFinCall d, Ev.d2hCall d, Ev.err ⟨opD2H, some d, some (env.d2h d)⟩],
      some (env.d2h d))
  else if env.freeIn d ≠ 0 then
    ([Ev.pushFinCall d, Ev.d2hCall d, Ev.freeInCall d,
      Ev.err ⟨opFreeIn, some d, some (env.freeIn d)⟩],
      some (env.freeIn d))
  else if env.freeOut d ≠ 0 then
    ([Ev.pushFinCall d, Ev.d2hCall d, Ev.freeInCall d, Ev.freeOutCall d,
      Ev.err ⟨opFreeOut, some d, some (env.freeOut d)⟩],
      some (env.freeOut d))
  else if env.destroy d ≠ 0 then
    ([Ev.pushFinCall d, Ev.d2hCall d, Ev.freeInCall d, Ev.freeOutCall d,
      Ev.destroyCall d, Ev.err ⟨opDestroy, some d, none⟩],
      some (env.destroy d))
  else
    ([Ev.pushFinCall d, Ev.d2hCall d, Ev.freeInCall d, Ev.freeOutCall d,
      Ev.destroyCall d, Ev.out (OutLine.deinitialized d)],
      none)

/-- The finalization loop over devices `d, d+1, ...` (`n` remaining). -/
def finFrom (env : Env) : Nat → Nat → List Ev × Option Nat
  | _, 0 => ([], none)
  | d, n + 1 =>
    let r := finDevice env d
    match r.2 with
    | some s => (r.1, some s)
    | none =>
      let rest := finFrom env (d + 1) n
      (r.1 ++ rest.1, rest.2)

/-- The validation loop events (lines 297-318), devices in increasing order;
the numeric contents of the result line are modelled by `validate` below. -/
def valEvents : Nat → List Ev
  | 0 => []
  | d + 1 => valEvents d ++ [Ev.validateCall d, Ev.out (OutLine.result d)]

/-- `main` (lines 91-324), parametrized by the tick count (the source's global
`nticks` is 10 and never mutated; every theorem below holds for any value).
Returns the exit status and the event trace. -/
def mainRun (env : Env) (T : Nat) : Nat × List Ev :=
  if env.devCountStat ≠ 0 then
    (env.devCountStat,
      [Ev.devCountCall, Ev.err ⟨opDevCount, none, some env.devCountStat⟩])
  else
    let n := env.devCount
    if n = 0 then (0, [Ev.devCountCall, Ev.out (OutLine.found n)])
    else
      let tr2 : List Ev :=
        [Ev.devCountCall, Ev.out (OutLine.found n), Ev.out (OutLine.threads env.nthreads),
         Ev.hostAlloc ((n + 2) * (nx * ny))]
      match initFrom env 0 n with
      | (_, trI, some s) => (s, tr2 ++ trI)
      | (cs, trI, none) =>
        match tickLoop env 0 T cs with
        | (_, trT, some s) => (s, tr2 ++ trI ++ trT)
        | (_, trT, none) =>
          match finFrom env 0 n with
          | (trF, some s) => (s, tr2 ++ trI ++ trT ++ trF)
          | (trF, none) => (0, tr2 ++ trI ++ trT ++ trF ++ valEvents n)

/-- The stdout lines of a trace. -/
def stdoutOf (tr : List Ev) : List OutLine :=
  tr.filterMap fun e =>
    match e with
    | Ev.out l => some l
    | _ => none

/-- The stderr lines of a trace. -/
def stderrOf (tr : List Ev) : List ErrLine :=
  tr.filterMap fun e =>
    match e with
    | Ev.err l => some l
    | _ => none

/-- The status an external-call event returns under `env`.  The host stencil
call maps to `none`: the source discards its return value (line 219), so it
never participates in status propagation. -/
def evStat (env : Env) : Ev → Option Nat
  | Ev.devCountCall => some env.devCountStat
  | Ev.devGetCall d => some (env.devGet d)
  | Ev.ctxCreateCall d => some (env.ctxCreate d)
  | Ev.mallocInCall d => some (env.mallocIn d)
  | Ev.mallocOutCall d => some (env.mallocOut d)
  | Ev.h2dCall d => some (env.h2d d)
  | Ev.popInitCall d => some (env.popInit d)
  | Ev.pushStepCall d t => some (env.pushStep d t)
  | Ev.gpuKernelCall d t => some (env.gpuStat d t)
  | Ev.popStepCall d t => some (env.popStep d t)
  | Ev.pushFinCall d => some (env.pushFin d)
  | Ev.d2hCall d => some (env.d2h d)
  | Ev.freeInCall d => some (env.freeIn d)
  | Ev.freeOutCall d => some (env.freeOut d)
  | Ev.destroyCall d => some (env.destroy d)
  | _ => none

/-- The statuses returned by the external calls of a trace, in program order. -/
def opStatuses (env : Env) (tr : List Ev) : List Nat :=
  tr.filterMap (evStat env)

/-- The first non-zero element of a status list. -/
def firstFail (l : List Nat) : Option Nat :=
  l.find? fun s => s != 0

/-- The status `thread_func` returns for device `d` at tick `t`: the first
non-zero among the push, kernel and pop statuses. -/
def stepStatus (env : Env) (t d : Nat) : Nat :=
  if env.pushStep d t ≠ 0 then env.pushStep d t
  else if env.gpuStat d t ≠ 0 then env.gpuStat d t
  else if env.popStep d t ≠ 0 then env.popStep d t
  else 0

/-- All initialization calls of device `d` succeed. -/
def initOK (env : Env) (d : Nat) : Prop :=
  env.devGet d = 0 ∧ env.ctxCreate d = 0 ∧ env.mallocIn d = 0 ∧
  env.mallocOut d = 0 ∧ env.h2d d = 0 ∧ env.popInit d = 0

instance (env : Env) (d : Nat) : Decidable (initOK env d) := by
  unfold initOK; infer_instance

/-- The configs produced by a fully successful initialization of devices
`d, d+1, ...` (`n` of them). -/
def mkConfigs : Nat → Nat → List Config
  | _, 0 => []
  | d, n + 1 => { idevice := d, status := 0, step := 0, inIsA := true } :: mkConfigs (d + 1) n

/-- Events of the cleanup phase (result copy-back, buffer frees, context
destruction, the deinitialized line). -/
def isCleanupEv : Ev → Bool
  | Ev.pushFinCall _ => true
  | Ev.d2hCall _ => true
  | Ev.freeInCall _ => true
  | Ev.freeOutCall _ => true
  | Ev.destroyCall _ => true
  | Ev.out (OutLine.deinitialized _) => true
  | _ => false

/-- Events of the validation phase. -/
def isValidateEv : Ev → Bool
  | Ev.validateCall _ => true
  | Ev.out (OutLine.result _) => true
  | _ => false

/-- Host workspace allocation events. -/
def isAllocEv : Ev → Bool
  | Ev.hostAlloc _ => true
  | _ => false

/-- Events of the per-device initialization phase. -/
def isInitEv : Ev → Bool
  | Ev.devGetCall _ => true
  | Ev.ctxCreateCall _ => true
  | Ev.mallocInCall _ => true
  | Ev.mallocOutCall _ => true
  | Ev.h2dCall _ => true
  | Ev.popInitCall _ => true
  | Ev.out (OutLine.initialized _) => true
  | _ => false

/-- Events of the step loop. -/
def isStepEv : Ev → Bool
  | Ev.pushStepCall _ _ => true
  | Ev.gpuKernelCall _ _ => true
  | Ev.popStepCall _ _ => true
  | Ev.cpuKernelCall _ => true
  | Ev.out (OutLine.completed _ _) => true
  | _ => false

/-- Shape of a stderr line of the program: per-device failure lines carry the
device index; every line carries the status formatted by its format string -
which excludes the destroy failure line (line 289, a single `%d` in the
format) - and the discovery failure line carries no device index. -/
def ErrOK (e : ErrLine) : Prop :=
  (e.op = opDestroy → (∃ d, e.device = some d) ∧ e.status = none) ∧
  (e.op = opDevCount → e.device = none ∧ ∃ s, e.status = some s ∧ s ≠ 0) ∧
  (e.op ≠ opDestroy → e.op ≠ opDevCount →
    (∃ d, e.device = some d) ∧ ∃ s, e.status = some s ∧ s ≠ 0)

/-! ### Host workspace initialization (lines 116-124), over exact cell values -/

/-- The seeding loop (lines 121-122): cell `i` of tile 0 receives the `i`-th
pseudo-random value `seed i`; `n` iterations done. -/
def seedLoop (seed w : Nat → ℚ) : Nat → Nat → ℚ
  | 0 => w
  | i + 1 => fun k => if k = i then seed i else seedLoop seed w i k

/-- `memcpy(inout + np * dst, inout, size)`: copy the `np` cells of tile 0
over tile `dst`. -/
def copyTile (np dst : Nat) (w : Nat → ℚ) : Nat → ℚ :=
  fun k => if np * dst ≤ k ∧ k < np * dst + np then w (k - np * dst) else w k

/-- The replication loop (lines 123-124): iteration `i` copies tile 0 to tile
`i + 1`; `m` iterations done. -/
def copyLoop (np : Nat) (w : Nat → ℚ) : Nat → Nat → ℚ
  | 0 => w
  | m + 1 => copyTile np (m + 1) (copyLoop np w m)

/-- The host workspace after initialization: seed tile 0 (over the arbitrary
malloc contents `w0`), then replicate it to tiles `1 .. ndevices + 1`. -/
def initWorkspace (ndevices np : Nat) (seed w0 : Nat → ℚ) : Nat → ℚ :=
  copyLoop np (seedLoop seed w0 np) (ndevices + 1)

/-! ### Host reference tile pointers (lines 195-196, 221-223, 239-244) -/

/-- The two host-reference tile pointers, as tile indices of the workspace. -/
structure HostPtrs where
  control : Nat
  input : Nat
deriving DecidableEq

/-- The pointer swap after each host reference step (lines 221-223), also
performed once after the loop (lines 239-244). -/
def hostSwap (p : HostPtrs) : HostPtrs :=
  ⟨p.input, p.control⟩

/-- The pointers after `t` ticks: initially `control = tile D`,
`input = tile D+1` (lines 195-196); each tick writes through `control` and
then swaps. -/
def hostLoop (D : Nat) : Nat → HostPtrs
  | 0 => ⟨D, D + 1⟩
  | t + 1 => hostSwap (hostLoop D t)

/-- The tile `pattern2d_cpu` writes at tick `t` (0-indexed): the `control`
pointer current when the tick's host section runs. -/
def cpuWriteTarget (D t : Nat) : Nat :=
  (hostLoop D t).control

/-- The `control` pointer at validation time: after `T` ticks and the single
post-loop swap (lines 239-244). -/
def finalControl (D T : Nat) : Nat :=
  (hostSwap (hostLoop D T)).control

/-! ### The validator (lines 297-318), over exact cell values -/

/-- The validator's running state: current maximum and its coordinates. -/
structure VState where
  maxdiff : ℚ
  maxi : Nat
  maxj : Nat
deriving DecidableEq

/-- `fabs(control[k] - tile[k])` for row-major index `k`. -/
def vdiff (control tile : Nat → ℚ) (k : Nat) : ℚ :=
  |control k - tile k|

/-- The loop body (lines 306-314): update the state when the diff at cell
`(i, j)` strictly exceeds the current maximum. -/
def vstep (d : Nat → ℚ) (nx i j : Nat) (st : VState) : VState :=
  if d (i + j * nx) > st.maxdiff then ⟨d (i + j * nx), i, j⟩ else st

/-- The inner loop over `i` (lines 304-314), `n` iterations done for row `j`. -/
def innerLoop (d : Nat → ℚ) (nx j : Nat) : Nat → VState → VState
  | 0, st => st
  | i + 1, st => vstep d nx i j (innerLoop d nx j i st)

/-- The outer loop over `j` (lines 302-315), `m` rows done. -/
def outerLoop (d : Nat → ℚ) (nx : Nat) : Nat → VState → VState
  | 0, st => st
  | j + 1, st => innerLoop d nx j nx (outerLoop d nx j st)

/-- The whole per-device computation (lines 300-315), starting from the cell
at index 0 (line 300-301). -/
def validate (control tile : Nat → ℚ) (nx ny : Nat) : VState :=
  outerLoop (vdiff control tile) nx ny ⟨vdiff control tile 0, 0, 0⟩

/-- The computation for device `d`: the tile compared is
`(inout + idevice * np)[...]` (lines 301, 308). -/
def validateDevice (w control : Nat → ℚ) (np nxv nyv d : Nat) : VState :=
  validate control (fun k => w (d * np + k)) nxv nyv

/-- Cell `(i, j)` already processed by the validator when row `j0` has done
`i0` inner iterations; the cell at index 0 seeds the state (lines 300-301). -/
def Covered (nxv j0 i0 i j : Nat) : Prop :=
  (i = 0 ∧ j = 0) ∨ (j < j0 ∧ i < nxv) ∨ (j = j0 ∧ i < i0)

/-- The validator loop invariant: the state's maximum is attained at its
recorded coordinates, dominates every processed cell, and is recorded at the
lowest row-major index among processed cells attaining it. -/
def VInv (d : Nat → ℚ) (nxv j0 i0 : Nat) (st : VState) : Prop :=
  Covered nxv j0 i0 st.maxi st.maxj ∧
  d (st.maxi + st.maxj * nxv) = st.maxdiff ∧
  (∀ i j, Covered nxv j0 i0 i j → d (i + j * nxv) ≤ st.maxdiff) ∧
  (∀ i j, Covered nxv j0 i0 i j → d (i + j * nxv) = st.maxdiff →
    st.maxi + st.maxj * nxv ≤ i + j * nxv)

/-! ### Concrete oracles used by counterexamples and witnesses -/

/-- One device, every external call succeeds. -/
def okEnv : Env where
  devCountStat := 0
  devCount := 1
  nthreads := 2
  devGet := fun _ => 0
  ctxCreate := fun _ => 0
  mallocIn := fun _ => 0
  mallocOut := fun _ => 0
  h2d := fun _ => 0
  popInit := fun _ => 0
  pushStep := fun _ _ => 0
  gpuStat := fun _ _ => 0
  popStep := fun _ _ => 0
  cpuStat := fun _ => 0
  pushFin := fun _ => 0
  d2h := fun _ => 0
  freeIn := fun _ => 0
  freeOut := fun _ => 0
  destroy := fun _ => 0

/-- The GPU stencil primitive fails with status 7. -/
def envKernelFail : Env :=
  { okEnv with gpuStat := fun _ _ => 7 }

/-- Popping the context in `thread_func` fails with status 5. -/
def envPopFail : Env :=
  { okEnv with popStep := fun _ _ => 5 }

/-- Destroying the context at finalization fails with status 7. -/
def envDestroyFail : Env :=
  { okEnv with destroy := fun _ => 7 }

/-- The host stencil primitive fails with status 7; everything else succeeds. -/
def envCpuFail : Env :=
  { okEnv with cpuStat := fun _ => 7 }

/-- No devices reported. -/
def envZero : Env :=
  { okEnv with devCount := 0 }

/-- Two devices; at every tick device 0's kernel fails with 9 and device 1's
context push fails with 5. -/
def envTwoFail : Env :=
  { okEnv with
    devCount := 2
    gpuStat := fun d _ => if d = 0 then 9 else 0
    pushStep := fun d _ => if d = 1 then 5 else 0 }

/-- A fresh config for device 0. -/
def cfg0 : Config :=
  { idevice := 0, status := 0, step := 0, inIsA := true }

/-- Concrete control tile for the validator witness. -/
def cWit : Nat → ℚ :=
  fun k => (k : ℚ)

/-- Concrete workspace for the validator witness. -/
def wWit : Nat → ℚ :=
  fun _ => 0

/-- Concrete seed for the replication witness. -/
def seedWit : Nat → ℚ :=
  fun n => (n : ℚ) + 1

/-- Concrete malloc junk for the replication witness. -/
def w0Wit : Nat → ℚ :=
  fun _ => 37

/-! ## Theorems -/

/-- Claim C4: for every successful run of `T ≥ 1` ticks, after the loop the
driver performs exactly one additional swap of the two host-reference tile
pointers (`finalControl` applies `hostSwap` once to the post-loop pointers),
so that the control tile the Validator compares against is the tile most
recently written by `pattern2d_cpu` (the write target of tick `T - 1`). -/
theorem final_host_swap (D T : Nat) (hT : 1 ≤ T) :
    finalControl D T = cpuWriteTarget D (T - 1) := by
  obtain ⟨T', rfl⟩ : ∃ T', T = T' + 1 := ⟨T - 1, by omega⟩
  rfl

/-- Witness for `final_host_swap` at `D = 2`, `T = 3`. -/
theorem final_host_swap_inst : finalControl 2 3 = cpuWriteTarget 2 2 :=
  final_host_swap 2 3 (by decide)

/-- Claim C7: when device discovery succeeds and reports 0 devices, the
program exits with status 0 after emitting exactly one stdout line (the
discovery line with the count), and performs no workspace allocation, device
initialization, stepping, validation, or cleanup. -/
theorem zero_device_success (env : Env) (T : Nat)
    (hdc : env.devCountStat = 0) (hn : env.devCount = 0) :
    (mainRun env T).1 = 0 ∧
    stdoutOf (mainRun env T).2 = [OutLine.found 0] ∧
    ∀ e ∈ (mainRun env T).2,
      isAllocEv e = false ∧ isInitEv e = false ∧ isStepEv e = false ∧
      isValidateEv e = false ∧ isCleanupEv e = false := by
  have hmain : mainRun env T = (0, [Ev.devCountCall, Ev.out (OutLine.found 0)]) := by
    simp [mainRun, hdc, hn]
  refine ⟨by rw [hmain], by rw [hmain]; rfl, ?_⟩
  rw [hmain]
  rintro e he
  simp only [List.mem_cons, List.mem_singleton, List.not_mem_nil, or_false] at he
  rcases he with rfl | rfl <;> exact ⟨rfl, rfl, rfl, rfl, rfl⟩

/-- Witness for `zero_device_success` on the concrete zero-device oracle. -/
theorem zero_device_success_inst :
    (mainRun envZero 10).1 = 0 ∧ stdoutOf (mainRun envZero 10).2 = [OutLine.found 0] :=
  ⟨(zero_device_success envZero 10 rfl rfl).1, (zero_device_success envZero 10 rfl rfl).2.1⟩

/-- Claim C8: an invocation of `thread_func` emits the completed-step line
exactly when the step succeeds, and the step number printed is the step
counter's post-increment value; a failing invocation emits no stdout line. -/
theorem completed_line_iff_success (env : Env) (t : Nat) (c : Config) :
    ((thread_func env t c).2.1 = 0 →
      stdoutOf (thread_func env t c).2.2 = [OutLine.completed c.idevice (c.step + 1)] ∧
      (thread_func env t c).1.step = c.step + 1) ∧
    ((thread_func env t c).2.1 ≠ 0 →
      stdoutOf (thread_func env t c).2.2 = []) := by
  by_cases h1 : env.pushStep c.idevice t = 0 <;>
    by_cases h2 : env.gpuStat c.idevice t = 0 <;>
      by_cases h3 : env.popStep c.idevice t = 0 <;>
        simp [thread_func, h1, h2, h3, stdoutOf]

/-- Witness for `completed_line_iff_success` on the all-success oracle. -/
theorem completed_line_iff_success_inst :
    stdoutOf (thread_func okEnv 0 cfg0).2.2 = [OutLine.completed 0 1] :=
  ((completed_line_iff_success okEnv 0 cfg0).1 rfl).1

/-- Claim C2, counterexample: when popping the context fails (status 5), the
invocation of `thread_func` fails, yet the step counter *has* been
incremented (the source increments at line 70, before the pop at line 73),
contradicting the claim that no failing invocation increments it. -/
theorem step_counter_pop_cex :
    (thread_func envPopFail 0 cfg0).2.1 = 5 ∧
    (thread_func envPopFail 0 cfg0).2.1 ≠ 0 ∧
    (thread_func envPopFail 0 cfg0).1.step = cfg0.step + 1 := by
  refine ⟨rfl, by decide, rfl⟩

/-- Claim C2, amended: on a failing invocation of `thread_func`, the step
counter is not incremented when the context push or the GPU stencil fails,
but is already incremented when the context pop fails; in every case the
returned error is stored in the Config's last-status field by the parallel
step driver (`gpuSection` assigns `thread_func`'s return to `status`). -/
theorem step_counter_on_failure (env : Env) (t : Nat) (c : Config) :
    ((thread_func env t c).2.1 ≠ 0 →
      ((env.pushStep c.idevice t ≠ 0 ∨ env.gpuStat c.idevice t ≠ 0) →
        (thread_func env t c).1.step = c.step) ∧
      (env.pushStep c.idevice t = 0 → env.gpuStat c.idevice t = 0 →
        (thread_func env t c).1.step = c.step + 1)) ∧
    ∀ cs : List Config,
      (gpuSection env t cs).1 =
        cs.map fun c' => { (thread_func env t c').1 with status := (thread_func env t c').2.1 } := by
  constructor
  · by_cases h1 : env.pushStep c.idevice t = 0 <;>
      by_cases h2 : env.gpuStat c.idevice t = 0 <;>
        by_cases h3 : env.popStep c.idevice t = 0 <;>
          simp [thread_func, h1, h2, h3]
  · intro cs
    induction cs with
    | nil => rfl
    | cons c' rest ih => simp [gpuSection, ih]

/-- Witness for `step_counter_on_failure`: pop failure with the counter
already incremented. -/
theorem step_counter_on_failure_inst :
    (thread_func envPopFail 0 cfg0).1.step = cfg0.step + 1 :=
  ((step_counter_on_failure envPopFail 0 cfg0).1 (by decide)).2 rfl rfl

/-- Cells written by the seeding loop hold the seed values. -/
theorem seedLoop_lt (seed w : Nat → ℚ) : ∀ n k, k < n → seedLoop seed w n k = seed k := by
  intro n
  induction n with
  | zero => intro k hk; exact absurd hk (Nat.not_lt_zero k)
  | succ m ih =>
    intro k hk
    by_cases h : k = m
    · subst h; simp [seedLoop]
    · have hk' : k < m := by omega
      simp [seedLoop, h, ih k hk']

/-- The replication loop never modifies tile 0. -/
theorem copyLoop_low (np : Nat) (w : Nat → ℚ) : ∀ m k, k < np → copyLoop np w m k = w k := by
  intro m
  induction m with
  | zero => intro k _; rfl
  | succ m ih =>
    intro k hk
    have hle : np ≤ np * (m + 1) := Nat.le_mul_of_pos_right np (Nat.succ_pos m)
    have hcond : ¬(np * (m + 1) ≤ k ∧ k < np * (m + 1) + np) := by
      rintro ⟨h1, _⟩; omega
    simp only [copyLoop, copyTile, if_neg hcond]
    exact ih k hk

/-- After `m` replication iterations, tile `t` (for `1 ≤ t ≤ m`) holds a copy
of tile 0. -/
theorem copyLoop_tile (np : Nat) (w : Nat → ℚ) :
    ∀ m t j, 1 ≤ t → t ≤ m → j < np → copyLoop np w m (np * t + j) = w j := by
  intro m
  induction m with
  | zero => intro t j h1 h2 _; omega
  | succ m ih =>
    intro t j h1 h2 hj
    by_cases ht : t = m + 1
    · subst ht
      have hcond : np * (m + 1) ≤ np * (m + 1) + j ∧ np * (m + 1) + j < np * (m + 1) + np :=
        ⟨Nat.le_add_right _ _, by omega⟩
      simp only [copyLoop, copyTile, if_pos hcond, Nat.add_sub_cancel_left]
      exact copyLoop_low np w m j hj
    · have h2' : t ≤ m := by omega
      have hmul : np * t + np ≤ np * (m + 1) := by
        have hstep : np * (t + 1) ≤ np * (m + 1) :=
          Nat.mul_le_mul (Nat.le_refl np) (by omega)
        calc np * t + np = np * (t + 1) := by ring
          _ ≤ np * (m + 1) := hstep
      have hcond : ¬(np * (m + 1) ≤ np * t + j ∧ np * t + j < np * (m + 1) + np) := by
        rintro ⟨hc, _⟩; omega
      simp only [copyLoop, copyTile, if_neg hcond]
      exact ih t j h1 h2' hj

/-- Claim C6: immediately after initialization, every tile `t ∈ [0, D + 1]`
of the host workspace of `(D + 2) · np` cells is a copy of the seeded tile 0
(cell for cell equal to the seed values). -/
theorem replication_invariant (D np : Nat) (seed w0 : Nat → ℚ) (t j : Nat)
    (ht : t ≤ D + 1) (hj : j < np) :
    initWorkspace D np seed w0 (np * t + j) = initWorkspace D np seed w0 j ∧
    initWorkspace D np seed w0 j = seed j := by
  have hbase : initWorkspace D np seed w0 j = seed j := by
    unfold initWorkspace
    rw [copyLoop_low np _ (D + 1) j hj]
    exact seedLoop_lt seed w0 np j hj
  refine ⟨?_, hbase⟩
  rcases Nat.eq_zero_or_pos t with rfl | htpos
  · simp
  · unfold initWorkspace
    rw [copyLoop_tile np _ (D + 1) t j htpos ht hj,
      copyLoop_low np _ (D + 1) j hj]

/-- Witness for `replication_invariant`: tile 2 of a 1-device workspace. -/
theorem replication_invariant_inst :
    initWorkspace 1 4 seedWit w0Wit (4 * 2 + 3) = initWorkspace 1 4 seedWit w0Wit 3 ∧
    initWorkspace 1 4 seedWit w0Wit 3 = seedWit 3 :=
  replication_invariant 1 4 seedWit w0Wit 2 3 (by decide) (by decide)

/-- Every cell covered so far has a row-major index at most that of the cell
the scan is about to process. -/
theorem covered_le (nxv j0 i0 i j : Nat) (h : Covered nxv j0 i0 i j) :
    i + j * nxv ≤ i0 + j0 * nxv := by
  unfold Covered at h
  rcases h with ⟨rfl, rfl⟩ | ⟨hj, hi⟩ | ⟨rfl, hi⟩
  · simp
  · have hlt : i + j * nxv < (j + 1) * nxv :=
      calc i + j * nxv < nxv + j * nxv := Nat.add_lt_add_right hi (j * nxv)
        _ = (j + 1) * nxv := by ring
    have hle : (j + 1) * nxv ≤ j0 * nxv := Nat.mul_le_mul hj (Nat.le_refl nxv)
    calc i + j * nxv ≤ j0 * nxv := Nat.le_of_lt (Nat.lt_of_lt_of_le hlt hle)
      _ ≤ i0 + j0 * nxv := Nat.le_add_left _ _
  · exact Nat.add_le_add_right (Nat.le_of_lt hi) _

/-- Processing one more cell extends the covered set by that cell. -/
theorem covered_succ (nxv j0 i0 i j : Nat) :
    Covered nxv j0 (i0 + 1) i j ↔ Covered nxv j0 i0 i j ∨ (j = j0 ∧ i = i0) := by
  unfold Covered
  omega

/-- One iteration of the inner loop preserves the invariant. -/
theorem vinv_step (d : Nat → ℚ) (nxv j0 i0 : Nat) (st : VState)
    (h : VInv d nxv j0 i0 st) : VInv d nxv j0 (i0 + 1) (vstep d nxv i0 j0 st) := by
  obtain ⟨hcov, hat, hbound, htie⟩ := h
  unfold vstep
  by_cases hgt : d (i0 + j0 * nxv) > st.maxdiff
  · rw [if_pos hgt]
    refine ⟨?_, rfl, ?_, ?_⟩
    · show Covered nxv j0 (i0 + 1) i0 j0
      unfold Covered
      omega
    · intro i j hc
      show d (i + j * nxv) ≤ d (i0 + j0 * nxv)
      rcases (covered_succ nxv j0 i0 i j).mp hc with hold | ⟨hj', hi'⟩
      · exact le_trans (hbound i j hold) (le_of_lt hgt)
      · rw [hj', hi']
    · intro i j hc heq
      show i0 + j0 * nxv ≤ i + j * nxv
      have heq' : d (i + j * nxv) = d (i0 + j0 * nxv) := heq
      rcases (covered_succ nxv j0 i0 i j).mp hc with hold | ⟨hj', hi'⟩
      · have hb := hbound i j hold
        rw [heq'] at hb
        exact absurd hb (not_le.mpr hgt)
      · rw [hj', hi']
  · rw [if_neg hgt]
    refine ⟨?_, hat, ?_, ?_⟩
    · unfold Covered at hcov ⊢
      omega
    · intro i j hc
      rcases (covered_succ nxv j0 i0 i j).mp hc with hold | ⟨hj', hi'⟩
      · exact hbound i j hold
      · rw [hj', hi']
        exact not_lt.mp hgt
    · intro i j hc heq
      rcases (covered_succ nxv j0 i0 i j).mp hc with hold | ⟨hj', hi'⟩
      · exact htie i j hold heq
      · rw [hj', hi']
        exact covered_le nxv j0 i0 st.maxi st.maxj hcov

/-- The inner loop preserves the invariant across a whole row. -/
theorem vinv_inner (d : Nat → ℚ) (nxv j0 : Nat) :
    ∀ n st, VInv d nxv j0 0 st → VInv d nxv j0 n (innerLoop d nxv j0 n st) := by
  intro n
  induction n with
  | zero => intro st h; exact h
  | succ m ih => intro st h; exact vinv_step d nxv j0 m _ (ih st h)

/-- Finishing row `j0` is the same coverage as starting row `j0 + 1`. -/
theorem vinv_row (d : Nat → ℚ) (nxv j0 : Nat) (st : VState)
    (h : VInv d nxv j0 nxv st) : VInv d nxv (j0 + 1) 0 st := by
  obtain ⟨hcov, hat, hbound, htie⟩ := h
  have hiff : ∀ i j, Covered nxv (j0 + 1) 0 i j ↔ Covered nxv j0 nxv i j := by
    intro i j
    unfold Covered
    omega
  exact ⟨(hiff _ _).mpr hcov, hat, fun i j hc => hbound i j ((hiff i j).mp hc),
    fun i j hc => htie i j ((hiff i j).mp hc)⟩

/-- The outer loop preserves the invariant across all rows. -/
theorem vinv_outer (d : Nat → ℚ) (nxv : Nat) :
    ∀ m st, VInv d nxv 0 0 st → VInv d nxv m 0 (outerLoop d nxv m st) := by
  intro m
  induction m with
  | zero => intro st h; exact h
  | succ k ih =>
    intro st h
    exact vinv_row d nxv k _ (vinv_inner d nxv k nxv _ (ih st h))

/-- The seed state (lines 300-301) satisfies the invariant. -/
theorem vinv_init (d : Nat → ℚ) (nxv : Nat) :
    VInv d nxv 0 0 ⟨d 0, 0, 0⟩ := by
  refine ⟨Or.inl ⟨rfl, rfl⟩, by simp, ?_, ?_⟩
  · rintro i j (⟨rfl, rfl⟩ | ⟨hj, _⟩ | ⟨_, hi⟩)
    · simp
    · exact absurd hj (Nat.not_lt_zero j)
    · exact absurd hi (Nat.not_lt_zero i)
  · intro i j _ _
    simp

/-- Claim C5: for every device `d`, the Validator computes the maximum over
all `(i, j) ∈ [0, nxv) × [0, nyv)` of the absolute difference between the
control tile and device `d`'s tile, and reports it with coordinates at which
it is attained; among cells attaining the maximum, the reported coordinates
have the lowest row-major index. -/
theorem validator_max_abs_diff (w control : Nat → ℚ) (np nxv nyv d : Nat)
    (hx : 0 < nxv) (hy : 0 < nyv) :
    (validateDevice w control np nxv nyv d).maxi < nxv ∧
    (validateDevice w control np nxv nyv d).maxj < nyv ∧
    vdiff control (fun k => w (d * np + k))
      ((validateDevice w control np nxv nyv d).maxi +
        (validateDevice w control np nxv nyv d).maxj * nxv) =
      (validateDevice w control np nxv nyv d).maxdiff ∧
    (∀ i j, i < nxv → j < nyv →
      vdiff control (fun k => w (d * np + k)) (i + j * nxv) ≤
        (validateDevice w control np nxv nyv d).maxdiff) ∧
    (∀ i j, i < nxv → j < nyv →
      vdiff control (fun k => w (d * np + k)) (i + j * nxv) =
        (validateDevice w control np nxv nyv d).maxdiff →
      (validateDevice w control np nxv nyv d).maxi +
        (validateDevice w control np nxv nyv d).maxj * nxv ≤ i + j * nxv) := by
  obtain ⟨hcov, hat, hbound, htie⟩ :
      VInv (vdiff control fun k => w (d * np + k)) nxv nyv 0
        (validateDevice w control np nxv nyv d) :=
    vinv_outer (vdiff control fun k => w (d * np + k)) nxv nyv
      ⟨vdiff control (fun k => w (d * np + k)) 0, 0, 0⟩
      (vinv_init (vdiff control fun k => w (d * np + k)) nxv)
  have hrange : (validateDevice w control np nxv nyv d).maxi < nxv ∧
      (validateDevice w control np nxv nyv d).maxj < nyv := by
    unfold Covered at hcov
    omega
  refine ⟨hrange.1, hrange.2, hat, ?_, ?_⟩
  · intro i j hi hj
    exact hbound i j (Or.inr (Or.inl ⟨hj, hi⟩))
  · intro i j hi hj heq
    exact htie i j (Or.inr (Or.inl ⟨hj, hi⟩)) heq

/-- Witness for `validator_max_abs_diff`: the bound at cell `(1, 1)` of a
2 × 2 grid for device 1. -/
theorem validator_max_abs_diff_inst :
    vdiff cWit (fun k => wWit (1 * 4 + k)) (1 + 1 * 2) ≤
      (validateDevice wWit cWit 4 2 2 1).maxdiff :=
  (validator_max_abs_diff wWit cWit 4 2 2 1 (by decide) (by decide)).2.2.2.1
    1 1 (by decide) (by decide)

/-- `opStatuses` distributes over trace concatenation. -/
theorem opStatuses_append (env : Env) (a b : List Ev) :
    opStatuses env (a ++ b) = opStatuses env a ++ opStatuses env b := by
  simp [opStatuses]

/-- The first failing status of an empty status list. -/
theorem firstFail_nil : firstFail [] = none := rfl

/-- A zero head does not change the first failing status. -/
theorem firstFail_cons_zero (x : Nat) (l : List Nat) (h : x = 0) :
    firstFail (x :: l) = firstFail l := by
  subst h
  simp [firstFail, List.find?]

/-- A non-zero head is the first failing status. -/
theorem firstFail_cons_nonzero (x : Nat) (l : List Nat) (h : x ≠ 0) :
    firstFail (x :: l) = some x := by
  have hb : (x != 0) = true := by
    cases x with
    | zero => exact absurd rfl h
    | succ n => rfl
  simp [firstFail, List.find?, hb]

/-- A clean prefix does not change the first failing status. -/
theorem firstFail_append_none (a b : List Nat) (h : firstFail a = none) :
    firstFail (a ++ b) = firstFail b := by
  induction a with
  | nil => rfl
  | cons x xs ih =>
    by_cases hx : x = 0
    · rw [List.cons_append, firstFail_cons_zero _ _ hx]
      rw [firstFail_cons_zero _ _ hx] at h
      exact ih h
    · rw [firstFail_cons_nonzero _ _ hx] at h
      exact absurd h (by simp)

/-- A failing prefix fixes the first failing status. -/
theorem firstFail_append_some (a b : List Nat) (s : Nat) (h : firstFail a = some s) :
    firstFail (a ++ b) = some s := by
  induction a with
  | nil => exact absurd h (by simp [firstFail])
  | cons x xs ih =>
    by_cases hx : x = 0
    · rw [List.cons_append, firstFail_cons_zero _ _ hx]
      rw [firstFail_cons_zero _ _ hx] at h
      exact ih h
    · rw [List.cons_append, firstFail_cons_nonzero _ _ hx]
      rw [firstFail_cons_nonzero _ _ hx] at h
      exact h

/-- The first failing status of a `thread_func` trace is its return value. -/
theorem thread_func_ff (env : Env) (t : Nat) (c : Config) :
    firstFail (opStatuses env (thread_func env t c).2.2) =
      (if (thread_func env t c).2.1 = 0 then none else some ((thread_func env t c).2.1)) := by
  by_cases h1 : env.pushStep c.idevice t = 0 <;>
    by_cases h2 : env.gpuStat c.idevice t = 0 <;>
      by_cases h3 : env.popStep c.idevice t = 0 <;>
        simp [thread_func, h1, h2, h3, opStatuses, evStat, firstFail_nil,
          firstFail_cons_zero, firstFail_cons_nonzero]

/-- The join emits no external calls. -/
theorem joinCheck_statuses (env : Env) : ∀ (cs : List Config) (i : Nat),
    opStatuses env (joinCheck i cs).2 = [] := by
  intro cs
  induction cs with
  | nil => intro i; rfl
  | cons c rest ih =>
    intro i
    by_cases h : c.status = 0
    · have hred : joinCheck i (c :: rest) = joinCheck (i + 1) rest := by
        simp [joinCheck, h]
      rw [hred]
      exact ih (i + 1)
    · have hred : (joinCheck i (c :: rest)).2 =
          [Ev.err ⟨opThreadFunc, some i, some c.status⟩] := by
        simp [joinCheck, h]
      rw [hred]
      rfl

/-- The join returns the first non-zero per-device status, scanning the
configs in order. -/
theorem joinCheck_spec : ∀ (cs : List Config) (i : Nat),
    (joinCheck i cs).1 = firstFail (cs.map Config.status) := by
  intro cs
  induction cs with
  | nil => intro i; rfl
  | cons c rest ih =>
    intro i
    by_cases h : c.status = 0
    · rw [List.map_cons, firstFail_cons_zero _ _ h]
      simp only [joinCheck, h, ne_eq, not_true_eq_false, if_false]
      exact ih (i + 1)
    · rw [List.map_cons, firstFail_cons_nonzero _ _ h]
      simp [joinCheck, h]

/-- The statuses stored by the device fan-out are the `thread_func` returns. -/
theorem gpuSection_configs (env : Env) (t : Nat) : ∀ cs : List Config,
    (gpuSection env t cs).1 =
      cs.map fun c => { (thread_func env t c).1 with status := (thread_func env t c).2.1 } := by
  intro cs
  induction cs with
  | nil => rfl
  | cons c rest ih => simp [gpuSection, ih]

/-- The first failing status of the fan-out trace is the first non-zero
stored per-device status. -/
theorem gpuSection_ff (env : Env) (t : Nat) : ∀ cs : List Config,
    firstFail (opStatuses env (gpuSection env t cs).2) =
      firstFail ((gpuSection env t cs).1.map Config.status) := by
  intro cs
  induction cs with
  | nil => rfl
  | cons c rest ih =>
    show firstFail (opStatuses env ((thread_func env t c).2.2 ++ (gpuSection env t rest).2)) =
      firstFail ((({ (thread_func env t c).1 with status := (thread_func env t c).2.1 }) ::
        (gpuSection env t rest).1).map Config.status)
    rw [opStatuses_append, List.map_cons]
    have htf := thread_func_ff env t c
    by_cases h : (thread_func env t c).2.1 = 0
    · rw [if_pos h] at htf
      rw [firstFail_append_none _ _ htf, ih]
      exact (firstFail_cons_zero _ _ h).symm
    · rw [if_neg h] at htf
      rw [firstFail_append_some _ _ _ htf]
      exact (firstFail_cons_nonzero _ _ h).symm

/-- The first failing status of one tick's trace is the join's result. -/
theorem tickOnce_ff (env : Env) (t : Nat) (cs : List Config) :
    firstFail (opStatuses env (tickOnce env t cs).2.1) = (tickOnce env t cs).2.2 := by
  show firstFail (opStatuses env ((gpuSection env t cs).2 ++ [Ev.cpuKernelCall t] ++
      (joinCheck 0 (gpuSection env t cs).1).2)) = (joinCheck 0 (gpuSection env t cs).1).1
  rw [opStatuses_append, opStatuses_append, joinCheck_statuses]
  have hcpu : opStatuses env [Ev.cpuKernelCall t] = [] := rfl
  rw [hcpu, List.append_nil, List.append_nil, gpuSection_ff, joinCheck_spec]

/-- The first failing status of the step loop's trace is its abort status. -/
theorem tickLoop_ff (env : Env) : ∀ (n t : Nat) (cs : List Config),
    firstFail (opStatuses env (tickLoop env t n cs).2.1) = (tickLoop env t n cs).2.2 := by
  intro n
  induction n with
  | zero => intro t cs; rfl
  | succ m ih =>
    intro t cs
    have h1 := tickOnce_ff env t cs
    rcases h : (tickOnce env t cs).2.2 with _ | s
    · rw [h] at h1
      simp only [tickLoop, h]
      rw [opStatuses_append, firstFail_append_none _ _ h1]
      exact ih (t + 1) (tickOnce env t cs).1
    · rw [h] at h1
      simp only [tickLoop, h]
      exact h1

/-- The first failing status of a per-device init trace is its abort status. -/
theorem initDevice_ff (env : Env) (d : Nat) :
    firstFail (opStatuses env (initDevice env d).2.1) = (initDevice env d).2.2 := by
  unfold initDevice
  split_ifs <;>
    simp_all [opStatuses, evStat, firstFail_nil, firstFail_cons_zero, firstFail_cons_nonzero]

/-- The first failing status of the init loop's trace is its abort status. -/
theorem initFrom_ff (env : Env) : ∀ (n d : Nat),
    firstFail (opStatuses env (initFrom env d n).2.1) = (initFrom env d n).2.2 := by
  intro n
  induction n with
  | zero => intro d; rfl
  | succ m ih =>
    intro d
    have h1 := initDevice_ff env d
    rcases h : (initDevice env d).2.2 with _ | s
    · rw [h] at h1
      simp only [initFrom, h]
      rw [opStatuses_append, firstFail_append_none _ _ h1]
      exact ih (d + 1)
    · rw [h] at h1
      simp only [initFrom, h]
      exact h1

/-- The first failing status of a per-device cleanup trace is its abort
status. -/
theorem finDevice_ff (env : Env) (d : Nat) :
    firstFail (opStatuses env (finDevice env d).1) = (finDevice env d).2 := by
  unfold finDevice
  split_ifs <;>
    simp_all [opStatuses, evStat, firstFail_nil, firstFail_cons_zero, firstFail_cons_nonzero]

/-- The first failing status of the cleanup loop's trace is its abort
status. -/
theorem finFrom_ff (env : Env) : ∀ (n d : Nat),
    firstFail (opStatuses env (finFrom env d n).1) = (finFrom env d n).2 := by
  intro n
  induction n with
  | zero => intro d; rfl
  | succ m ih =>
    intro d
    have h1 := finDevice_ff env d
    rcases h : (finDevice env d).2 with _ | s
    · rw [h] at h1
      simp only [finFrom, h]
      rw [opStatuses_append, firstFail_append_none _ _ h1]
      exact ih (d + 1)
    · rw [h] at h1
      simp only [finFrom, h]
      exact h1

/-- The validation loop emits no external calls. -/
theorem valEvents_statuses (env : Env) : ∀ n, opStatuses env (valEvents n) = [] := by
  intro n
  induction n with
  | zero => rfl
  | succ m ih =>
    show opStatuses env (valEvents m ++ [Ev.validateCall m, Ev.out (OutLine.result m)]) = []
    rw [opStatuses_append, ih]
    rfl

/-- Claim C3, counterexample: the host stencil primitive (`pattern2d_cpu`) is
invoked and returns the non-zero status 7, yet the program's exit status is 0:
the source discards `pattern2d_cpu`'s return value (line 219), so a failing
stencil primitive is not always propagated to the exit status. -/
theorem exit_status_cpu_cex :
    envCpuFail.cpuStat 0 = 7 ∧
    Ev.cpuKernelCall 0 ∈ (mainRun envCpuFail 1).2 ∧
    (mainRun envCpuFail 1).1 = 0 :=
  ⟨rfl, by decide, by decide⟩

/-- Claim C3, amended: the exit status is the first non-zero status returned
by an accelerator-binding operation or the *GPU* stencil primitive, in program
order, propagated unchanged; the CPU stencil primitive's return value is
discarded and never propagated; when every such operation succeeds (including
the zero-device case) the exit status is 0.  (`evStat` assigns each external
call its returned status and assigns the host stencil call none.) -/
theorem exit_status_first_nonzero (env : Env) (T : Nat) :
    (mainRun env T).1 = (firstFail (opStatuses env (mainRun env T).2)).getD 0 := by
  by_cases hdc : env.devCountStat = 0
  · by_cases hn : env.devCount = 0
    · simp [mainRun, hdc, hn, opStatuses, evStat, firstFail_nil, firstFail_cons_zero]
    · rcases hI : initFrom env 0 env.devCount with ⟨csI, trI, rI⟩
      have hIff : firstFail (opStatuses env trI) = rI := by
        have h := initFrom_ff env env.devCount 0
        rw [hI] at h
        exact h
      have hs2 : firstFail [env.devCountStat] = none := by
        rw [firstFail_cons_zero _ _ hdc]
        rfl
      rcases rI with _ | sI
      · rcases hT : tickLoop env 0 T csI with ⟨csT, trT, rT⟩
        have hTff : firstFail (opStatuses env trT) = rT := by
          have h := tickLoop_ff env T 0 csI
          rw [hT] at h
          exact h
        have hA : firstFail ([env.devCountStat] ++ opStatuses env trI) = none := by
          rw [firstFail_append_none _ _ hs2]
          exact hIff
        rcases rT with _ | sT
        · rcases hF : finFrom env 0 env.devCount with ⟨trF, rF⟩
          have hFff : firstFail (opStatuses env trF) = rF := by
            have h := finFrom_ff env env.devCount 0
            rw [hF] at h
            exact h
          have hB : firstFail (([env.devCountStat] ++ opStatuses env trI) ++
              opStatuses env trT) = none := by
            rw [firstFail_append_none _ _ hA]
            exact hTff
          rcases rF with _ | sF
          · have hmain : mainRun env T = (0,
                [Ev.devCountCall, Ev.out (OutLine.found env.devCount),
                 Ev.out (OutLine.threads env.nthreads),
                 Ev.hostAlloc ((env.devCount + 2) * (nx * ny))] ++
                trI ++ trT ++ trF ++ valEvents env.devCount) := by
              simp [mainRun, hdc, hn, hI, hT, hF]
            rw [hmain]
            show (0 : Nat) = (firstFail (opStatuses env
              ([Ev.devCountCall, Ev.out (OutLine.found env.devCount),
                Ev.out (OutLine.threads env.nthreads),
                Ev.hostAlloc ((env.devCount + 2) * (nx * ny))] ++
                trI ++ trT ++ trF ++ valEvents env.devCount))).getD 0
            rw [opStatuses_append, opStatuses_append, opStatuses_append, opStatuses_append,
              valEvents_statuses, List.append_nil]
            have hC : firstFail ((([env.devCountStat] ++ opStatuses env trI) ++
                opStatuses env trT) ++ opStatuses env trF) = none := by
              rw [firstFail_append_none _ _ hB]
              exact hFff
            rw [show opStatuses env
                [Ev.devCountCall, Ev.out (OutLine.found env.devCount),
                 Ev.out (OutLine.threads env.nthreads),
                 Ev.hostAlloc ((env.devCount + 2) * (nx * ny))] =
                [env.devCountStat] from rfl, hC]
            rfl
          · have hmain : mainRun env T = (sF,
                [Ev.devCountCall, Ev.out (OutLine.found env.devCount),
                 Ev.out (OutLine.threads env.nthreads),
                 Ev.hostAlloc ((env.devCount + 2) * (nx * ny))] ++
                trI ++ trT ++ trF) := by
              simp [mainRun, hdc, hn, hI, hT, hF]
            rw [hmain]
            show sF = (firstFail (opStatuses env
              ([Ev.devCountCall, Ev.out (OutLine.found env.devCount),
                Ev.out (OutLine.threads env.nthreads),
                Ev.hostAlloc ((env.devCount + 2) * (nx * ny))] ++
                trI ++ trT ++ trF))).getD 0
            rw [opStatuses_append, opStatuses_append, opStatuses_append]
            rw [show opStatuses env
                [Ev.devCountCall, Ev.out (OutLine.found env.devCount),
                 Ev.out (OutLine.threads env.nthreads),
                 Ev.hostAlloc ((env.devCount + 2) * (nx * ny))] =
                [env.devCountStat] from rfl]
            rw [firstFail_append_none _ _ hB, hFff]
            rfl
        · have hmain : mainRun env T = (sT,
              [Ev.devCountCall, Ev.out (OutLine.found env.devCount),
               Ev.out (OutLine.threads env.nthreads),
               Ev.hostAlloc ((env.devCount + 2) * (nx * ny))] ++
              trI ++ trT) := by
            simp [mainRun, hdc, hn, hI, hT]
          rw [hmain]
          show sT = (firstFail (opStatuses env
            ([Ev.devCountCall, Ev.out (OutLine.found env.devCount),
              Ev.out (OutLine.threads env.nthreads),
              Ev.hostAlloc ((env.devCount + 2) * (nx * ny))] ++
              trI ++ trT))).getD 0
          rw [opStatuses_append, opStatuses_append]
          rw [show opStatuses env
              [Ev.devCountCall, Ev.out (OutLine.found env.devCount),
               Ev.out (OutLine.threads env.nthreads),
               Ev.hostAlloc ((env.devCount + 2) * (nx * ny))] =
              [env.devCountStat] from rfl]
          rw [firstFail_append_none _ _ hA, hTff]
          rfl
      · have hmain : mainRun env T = (sI,
            [Ev.devCountCall, Ev.out (OutLine.found env.devCount),
             Ev.out (OutLine.threads env.nthreads),
             Ev.hostAlloc ((env.devCount + 2) * (nx * ny))] ++ trI) := by
          simp [mainRun, hdc, hn, hI]
        rw [hmain]
        show sI = (firstFail (opStatuses env
          ([Ev.devCountCall, Ev.out (OutLine.found env.devCount),
            Ev.out (OutLine.threads env.nthreads),
            Ev.hostAlloc ((env.devCount + 2) * (nx * ny))] ++ trI))).getD 0
        rw [opStatuses_append]
        rw [show opStatuses env
            [Ev.devCountCall, Ev.out (OutLine.found env.devCount),
             Ev.out (OutLine.threads env.nthreads),
             Ev.hostAlloc ((env.devCount + 2) * (nx * ny))] =
            [env.devCountStat] from rfl]
        rw [firstFail_append_none _ _ hs2, hIff]
        rfl
  · simp [mainRun, hdc, opStatuses, evStat, firstFail_cons_nonzero]

/-- `thread_func` returns `stepStatus`: the first non-zero among push, kernel
and pop statuses. -/
theorem thread_func_status (env : Env) (t : Nat) (c : Config) :
    (thread_func env t c).2.1 = stepStatus env t c.idevice := by
  by_cases h1 : env.pushStep c.idevice t = 0 <;>
    by_cases h2 : env.gpuStat c.idevice t = 0 <;>
      by_cases h3 : env.popStep c.idevice t = 0 <;>
        simp [thread_func, stepStatus, h1, h2, h3]

/-- `thread_func` never changes the device index of a config. -/
theorem thread_func_idevice (env : Env) (t : Nat) (c : Config) :
    (thread_func env t c).1.idevice = c.idevice := by
  by_cases h1 : env.pushStep c.idevice t = 0 <;>
    by_cases h2 : env.gpuStat c.idevice t = 0 <;>
      by_cases h3 : env.popStep c.idevice t = 0 <;>
        simp [thread_func, h1, h2, h3]

/-- A `thread_func` invocation emits no cleanup or validation events. -/
theorem thread_func_events (env : Env) (t : Nat) (c : Config) :
    ∀ e ∈ (thread_func env t c).2.2, isCleanupEv e = false ∧ isValidateEv e = false := by
  by_cases h1 : env.pushStep c.idevice t = 0 <;>
    by_cases h2 : env.gpuStat c.idevice t = 0 <;>
      by_cases h3 : env.popStep c.idevice t = 0 <;>
        simp [thread_func, h1, h2, h3, isCleanupEv, isValidateEv]

/-- All context-push events of a `thread_func` invocation carry its tick. -/
theorem thread_func_push_ticks (env : Env) (t : Nat) (c : Config) :
    ∀ d t2, Ev.pushStepCall d t2 ∈ (thread_func env t c).2.2 → t2 = t := by
  by_cases h1 : env.pushStep c.idevice t = 0 <;>
    by_cases h2 : env.gpuStat c.idevice t = 0 <;>
      by_cases h3 : env.popStep c.idevice t = 0 <;>
        (intro d t2 h
         simp [thread_func, h1, h2, h3] at h
         exact h.2)

/-- The statuses stored by the fan-out, as a function of the device indices. -/
theorem gpuSection_status_map (env : Env) (t : Nat) : ∀ cs : List Config,
    (gpuSection env t cs).1.map Config.status = cs.map fun c => stepStatus env t c.idevice := by
  intro cs
  induction cs with
  | nil => rfl
  | cons c rest ih => simp [gpuSection, ih, thread_func_status env t c]

/-- The fan-out preserves the device indices of the configs. -/
theorem gpuSection_idevice_map (env : Env) (t : Nat) : ∀ cs : List Config,
    (gpuSection env t cs).1.map Config.idevice = cs.map Config.idevice := by
  intro cs
  induction cs with
  | nil => rfl
  | cons c rest ih => simp [gpuSection, ih, thread_func_idevice env t c]

/-- The fan-out emits no cleanup or validation events. -/
theorem gpuSection_events (env : Env) (t : Nat) : ∀ cs : List Config,
    ∀ e ∈ (gpuSection env t cs).2, isCleanupEv e = false ∧ isValidateEv e = false := by
  intro cs
  induction cs with
  | nil => intro e he; exact absurd he (List.not_mem_nil e)
  | cons c rest ih =>
    intro e he
    have he2 : e ∈ (thread_func env t c).2.2 ++ (gpuSection env t rest).2 := he
    rcases List.mem_append.mp he2 with h | h
    · exact thread_func_events env t c e h
    · exact ih e h

/-- All context-push events of the fan-out carry its tick. -/
theorem gpuSection_push_ticks (env : Env) (t : Nat) : ∀ cs : List Config,
    ∀ d t2, Ev.pushStepCall d t2 ∈ (gpuSection env t cs).2 → t2 = t := by
  intro cs
  induction cs with
  | nil => intro d t2 h; exact absurd h (List.not_mem_nil _)
  | cons c rest ih =>
    intro d t2 h
    have h2 : Ev.pushStepCall d t2 ∈ (thread_func env t c).2.2 ++ (gpuSection env t rest).2 := h
    rcases List.mem_append.mp h2 with h3 | h3
    · exact thread_func_push_ticks env t c d t2 h3
    · exact ih d t2 h3

/-- A join over all-successful configs aborts nothing and prints nothing. -/
theorem joinCheck_all_zero : ∀ (cs : List Config) (i : Nat),
    (∀ c ∈ cs, c.status = 0) → joinCheck i cs = (none, []) := by
  intro cs
  induction cs with
  | nil => intro i _; rfl
  | cons c rest ih =>
    intro i h
    have hc : c.status = 0 := h c (List.mem_cons_self c rest)
    have hred : joinCheck i (c :: rest) = joinCheck (i + 1) rest := by
      simp [joinCheck, hc]
    rw [hred]
    exact ih (i + 1) fun c2 hc2 => h c2 (List.mem_cons_of_mem c hc2)

/-- The join emits only stderr lines. -/
theorem joinCheck_err_only : ∀ (cs : List Config) (i : Nat),
    ∀ e ∈ (joinCheck i cs).2, ∃ l, e = Ev.err l := by
  intro cs
  induction cs with
  | nil => intro i e he; exact absurd he (List.not_mem_nil e)
  | cons c rest ih =>
    intro i e he
    by_cases h : c.status = 0
    · have hred : joinCheck i (c :: rest) = joinCheck (i + 1) rest := by
        simp [joinCheck, h]
      rw [hred] at he
      exact ih (i + 1) e he
    · have hred : (joinCheck i (c :: rest)).2 =
          [Ev.err ⟨opThreadFunc, some i, some c.status⟩] := by
        simp [joinCheck, h]
      rw [hred] at he
      simp only [List.mem_singleton] at he
      exact ⟨_, he⟩

/-- One tick's trace emits no cleanup or validation events. -/
theorem tickOnce_events (env : Env) (t : Nat) (cs : List Config) :
    ∀ e ∈ (tickOnce env t cs).2.1, isCleanupEv e = false ∧ isValidateEv e = false := by
  intro e he
  have he2 : e ∈ (gpuSection env t cs).2 ++ [Ev.cpuKernelCall t] ++
      (joinCheck 0 (gpuSection env t cs).1).2 := he
  rcases List.mem_append.mp he2 with h | h
  · rcases List.mem_append.mp h with h2 | h2
    · exact gpuSection_events env t cs e h2
    · simp only [List.mem_singleton] at h2
      subst h2
      exact ⟨rfl, rfl⟩
  · obtain ⟨l, rfl⟩ := joinCheck_err_only (gpuSection env t cs).1 0 e h
    exact ⟨rfl, rfl⟩

/-- All context-push events of one tick carry its tick index. -/
theorem tickOnce_push_ticks (env : Env) (t : Nat) (cs : List Config) (d t2 : Nat)
    (h : Ev.pushStepCall d t2 ∈ (tickOnce env t cs).2.1) : t2 = t := by
  have h2 : Ev.pushStepCall d t2 ∈ (gpuSection env t cs).2 ++ [Ev.cpuKernelCall t] ++
      (joinCheck 0 (gpuSection env t cs).1).2 := h
  rcases List.mem_append.mp h2 with h3 | h3
  · rcases List.mem_append.mp h3 with h4 | h4
    · exact gpuSection_push_ticks env t cs d t2 h4
    · simp at h4
  · obtain ⟨l, hl⟩ := joinCheck_err_only (gpuSection env t cs).1 0 _ h3
    exact Ev.noConfusion hl

/-- The step loop emits no cleanup or validation events. -/
theorem tickLoop_events (env : Env) : ∀ (n t : Nat) (cs : List Config),
    ∀ e ∈ (tickLoop env t n cs).2.1, isCleanupEv e = false ∧ isValidateEv e = false := by
  intro n
  induction n with
  | zero => intro t cs e he; exact absurd he (List.not_mem_nil e)
  | succ m ih =>
    intro t cs e he
    rcases habort : (tickOnce env t cs).2.2 with _ | s
    · simp only [tickLoop, habort] at he
      rcases List.mem_append.mp he with h | h
      · exact tickOnce_events env t cs e h
      · exact ih (t + 1) (tickOnce env t cs).1 e h
    · simp only [tickLoop, habort] at he
      exact tickOnce_events env t cs e he

/-- First non-zero of `σ` over `[s, s+n)` when `d` is the least failing index. -/
theorem firstFail_range'_map (σ : Nat → Nat) : ∀ (n s d : Nat), s ≤ d → d < s + n →
    σ d ≠ 0 → (∀ k, s ≤ k → k < d → σ k = 0) →
    firstFail ((List.range' s n).map σ) = some (σ d) := by
  intro n
  induction n with
  | zero => intro s d h1 h2 _ _; omega
  | succ m ih =>
    intro s d h1 h2 h3 h4
    have hred : (List.range' s (m + 1)).map σ = σ s :: (List.range' (s + 1) m).map σ := rfl
    rw [hred]
    by_cases hds : d = s
    · subst hds
      exact firstFail_cons_nonzero _ _ h3
    · have hs0 : σ s = 0 := h4 s (Nat.le_refl s) (by omega)
      rw [firstFail_cons_zero _ _ hs0]
      exact ih (s + 1) d (by omega) (by omega) h3 fun k hk1 hk2 => h4 k (by omega) hk2

/-- The device indices of freshly initialized configs. -/
theorem mkConfigs_idevice : ∀ (n d0 : Nat),
    (mkConfigs d0 n).map Config.idevice = List.range' d0 n := by
  intro n
  induction n with
  | zero => intro d0; rfl
  | succ m ih =>
    intro d0
    show d0 :: (mkConfigs (d0 + 1) m).map Config.idevice = d0 :: List.range' (d0 + 1) m
    rw [ih (d0 + 1)]

/-- A fully successful per-device initialization. -/
theorem initDevice_ok (env : Env) (d : Nat) (h : initOK env d) :
    (initDevice env d).1 = { idevice := d, status := 0, step := 0, inIsA := true } ∧
    (initDevice env d).2.2 = none := by
  obtain ⟨h1, h2, h3, h4, h5, h6⟩ := h
  constructor <;> simp [initDevice, h1, h2, h3, h4, h5, h6]

/-- A per-device initialization emits no cleanup, validation, or step-loop
events. -/
theorem initDevice_events (env : Env) (d : Nat) :
    ∀ e ∈ (initDevice env d).2.1,
      isCleanupEv e = false ∧ isValidateEv e = false ∧ isStepEv e = false := by
  unfold initDevice
  split_ifs <;> simp [isCleanupEv, isValidateEv, isStepEv]

/-- The init loop emits no cleanup, validation, or step-loop events. -/
theorem initFrom_events (env : Env) : ∀ (n d : Nat),
    ∀ e ∈ (initFrom env d n).2.1,
      isCleanupEv e = false ∧ isValidateEv e = false ∧ isStepEv e = false := by
  intro n
  induction n with
  | zero => intro d e he; exact absurd he (List.not_mem_nil e)
  | succ m ih =>
    intro d e he
    rcases habort : (initDevice env d).2.2 with _ | s
    · simp only [initFrom, habort] at he
      rcases List.mem_append.mp he with h | h
      · exact initDevice_events env d e h
      · exact ih (d + 1) e h
    · simp only [initFrom, habort] at he
      exact initDevice_events env d e he

/-- A fully successful initialization loop produces the fresh configs and no
abort. -/
theorem initFrom_ok (env : Env) : ∀ (n d0 : Nat),
    (∀ k, d0 ≤ k → k < d0 + n → initOK env k) →
    (initFrom env d0 n).1 = mkConfigs d0 n ∧ (initFrom env d0 n).2.2 = none := by
  intro n
  induction n with
  | zero => intro d0 _; exact ⟨rfl, rfl⟩
  | succ m ih =>
    intro d0 h
    have hd0 := initDevice_ok env d0 (h d0 (Nat.le_refl d0) (by omega))
    have hrest := ih (d0 + 1) fun k hk1 hk2 => h k (by omega) (by omega)
    constructor
    · show ((initFrom env d0 (m + 1)).1 = _)
      simp only [initFrom, hd0.2]
      rw [hd0.1, hrest.1]
      rfl
    · simp only [initFrom, hd0.2]
      exact hrest.2

/-- The step loop under env-level hypotheses: every tick before `tAb` is clean
for every device, and at tick `tAb` device `dF` is the least-index failing
device.  Then the loop aborts with `dF`'s status and performs no step beyond
tick `tAb`. -/
theorem tickLoop_abort (env : Env) (tAb dF n : Nat)
    (hdF : dF < n) (hfail : stepStatus env tAb dF ≠ 0)
    (hleast : ∀ k, k < dF → stepStatus env tAb k = 0) :
    ∀ (m t : Nat) (cs : List Config),
      cs.map Config.idevice = List.range' 0 n →
      (∀ t2, t ≤ t2 → t2 < tAb → ∀ k, k < n → stepStatus env t2 k = 0) →
      t ≤ tAb → tAb < t + m →
      (tickLoop env t m cs).2.2 = some (stepStatus env tAb dF) ∧
      (∀ d2 t2, Ev.pushStepCall d2 t2 ∈ (tickLoop env t m cs).2.1 → t2 ≤ tAb) := by
  intro m
  induction m with
  | zero => intro t cs _ _ h1 h2; omega
  | succ m ih =>
    intro t cs hAl hclean h1 h2
    have hstat : (gpuSection env t cs).1.map Config.status =
        (List.range' 0 n).map (stepStatus env t) := by
      calc (gpuSection env t cs).1.map Config.status
          = cs.map fun c => stepStatus env t c.idevice := gpuSection_status_map env t cs
        _ = (cs.map Config.idevice).map (stepStatus env t) := by
            rw [List.map_map]
            rfl
        _ = (List.range' 0 n).map (stepStatus env t) := by rw [hAl]
    by_cases htab : t = tAb
    · subst htab
      have habort : (tickOnce env t cs).2.2 = some (stepStatus env t dF) := by
        show (joinCheck 0 (gpuSection env t cs).1).1 = _
        rw [joinCheck_spec, hstat]
        exact firstFail_range'_map (stepStatus env t) n 0 dF (Nat.zero_le dF) (by omega)
          hfail fun k _ hk => hleast k hk
      constructor
      · simp only [tickLoop, habort]
      · intro d2 t2 hmem
        simp only [tickLoop, habort] at hmem
        exact Nat.le_of_eq (tickOnce_push_ticks env t cs d2 t2 hmem)
    · have hzero : ∀ c ∈ (gpuSection env t cs).1, c.status = 0 := by
        intro c hc
        have hm : c.status ∈ (gpuSection env t cs).1.map Config.status :=
          List.mem_map_of_mem Config.status hc
        rw [hstat] at hm
        obtain ⟨k, hk, hkeq⟩ := List.mem_map.mp hm
        obtain ⟨_, hk2⟩ := List.mem_range'_1.mp hk
        rw [← hkeq]
        exact hclean t (Nat.le_refl t) (by omega) k (by omega)
      have hnone : (tickOnce env t cs).2.2 = none := by
        show (joinCheck 0 (gpuSection env t cs).1).1 = none
        rw [joinCheck_all_zero (gpuSection env t cs).1 0 hzero]
      have hAl2 : (tickOnce env t cs).1.map Config.idevice = List.range' 0 n := by
        show (gpuSection env t cs).1.map Config.idevice = _
        rw [gpuSection_idevice_map]
        exact hAl
      have hrec := ih (t + 1) (tickOnce env t cs).1 hAl2
        (fun t2 ht1 ht2 k hk => hclean t2 (by omega) ht2 k hk) (by omega) (by omega)
      constructor
      · simp only [tickLoop, hnone]
        exact hrec.1
      · intro d2 t2 hmem
        simp only [tickLoop, hnone] at hmem
        rcases List.mem_append.mp hmem with h | h
        · rw [tickOnce_push_ticks env t cs d2 t2 h]
          exact h1
        · exact hrec.2 d2 t2 h

/-- Core abort behaviour of `main`: under the hypotheses of `tickLoop_abort`
and a fully successful initialization, `main` exits at the tick join of tick
`tAb` with device `dF`'s status; the whole trace is the pre-loop events, the
init events and the step events up to tick `tAb`. -/
theorem mainRun_abort_core (env : Env) (T tAb dF : Nat)
    (hdc : env.devCountStat = 0) (hn : env.devCount ≠ 0)
    (hinit : ∀ k, k < env.devCount → initOK env k)
    (hclean : ∀ t2, t2 < tAb → ∀ k, k < env.devCount → stepStatus env t2 k = 0)
    (hT : tAb < T) (hdF : dF < env.devCount)
    (hfail : stepStatus env tAb dF ≠ 0)
    (hleast : ∀ k, k < dF → stepStatus env tAb k = 0) :
    ∃ trI trT,
      mainRun env T = (stepStatus env tAb dF,
        [Ev.devCountCall, Ev.out (OutLine.found env.devCount),
         Ev.out (OutLine.threads env.nthreads),
         Ev.hostAlloc ((env.devCount + 2) * (nx * ny))] ++ trI ++ trT) ∧
      (∀ e ∈ trI, isCleanupEv e = false ∧ isValidateEv e = false ∧ isStepEv e = false) ∧
      (∀ e ∈ trT, isCleanupEv e = false ∧ isValidateEv e = false) ∧
      (∀ d2 t2, Ev.pushStepCall d2 t2 ∈ trT → t2 ≤ tAb) := by
  have hIok := initFrom_ok env env.devCount 0 fun k _ hk => hinit k (by omega)
  rcases hI : initFrom env 0 env.devCount with ⟨csI, trI, rI⟩
  have hcs : csI = mkConfigs 0 env.devCount := by
    have h := hIok.1
    rw [hI] at h
    exact h
  have hrI : rI = none := by
    have h := hIok.2
    rw [hI] at h
    exact h
  subst hcs
  subst hrI
  have hAl : (mkConfigs 0 env.devCount).map Config.idevice = List.range' 0 env.devCount :=
    mkConfigs_idevice env.devCount 0
  have hTick := tickLoop_abort env tAb dF env.devCount hdF hfail hleast T 0
    (mkConfigs 0 env.devCount) hAl (fun t2 _ ht2 k hk => hclean t2 ht2 k hk)
    (Nat.zero_le tAb) (by omega)
  rcases hTmatch : tickLoop env 0 T (mkConfigs 0 env.devCount) with ⟨csT, trT, rT⟩
  have hrT : rT = some (stepStatus env tAb dF) := by
    have h := hTick.1
    rw [hTmatch] at h
    exact h
  subst hrT
  refine ⟨trI, trT, ?_, ?_, ?_, ?_⟩
  · simp [mainRun, hdc, hn, hI, hTmatch]
  · intro e he
    have h := initFrom_events env env.devCount 0 e
    rw [hI] at h
    exact h he
  · intro e he
    have h := tickLoop_events env T 0 (mkConfigs 0 env.devCount) e
    rw [hTmatch] at h
    exact h he
  · intro d2 t2 hmem
    have h := hTick.2 d2 t2
    rw [hTmatch] at h
    exact h hmem

/-- Claim C1, counterexample: device 0 is fully initialized (its initialized
line is emitted), its kernel fails at tick 0, and the program aborts with that
status (7) - but the cleanup phase does *not* run: the result is not copied
back, the buffers are not freed, the context is not destroyed, and no
deinitialization line is emitted, because the join returns straight out of
`main` (line 234), skipping the cleanup loop (lines 246-294). -/
theorem abort_skips_cleanup_cex :
    (mainRun envKernelFail 10).1 = 7 ∧
    OutLine.initialized 0 ∈ stdoutOf (mainRun envKernelFail 10).2 ∧
    OutLine.deinitialized 0 ∉ stdoutOf (mainRun envKernelFail 10).2 ∧
    Ev.d2hCall 0 ∉ (mainRun envKernelFail 10).2 ∧
    Ev.freeInCall 0 ∉ (mainRun envKernelFail 10).2 ∧
    Ev.freeOutCall 0 ∉ (mainRun envKernelFail 10).2 ∧
    Ev.destroyCall 0 ∉ (mainRun envKernelFail 10).2 := by
  decide

/-- Claim C1, amended: when a device's Step Executor records a non-zero
last-status at a tick join (tick `tAb`, least failing device `dF`, after a
successful initialization and clean earlier ticks), the program aborts with
that status and skips the remaining ticks and the validation phase - and it
*also* skips the cleanup phase entirely: no result copy-back, buffer free,
context destruction, or deinitialization line occurs for any device, because
`main` returns directly from the join. -/
theorem abort_skips_cleanup (env : Env) (T tAb dF : Nat)
    (hdc : env.devCountStat = 0) (hn : env.devCount ≠ 0)
    (hinit : ∀ k, k < env.devCount → initOK env k)
    (hclean : ∀ t2, t2 < tAb → ∀ k, k < env.devCount → stepStatus env t2 k = 0)
    (hT : tAb < T) (hdF : dF < env.devCount)
    (hfail : stepStatus env tAb dF ≠ 0)
    (hleast : ∀ k, k < dF → stepStatus env tAb k = 0) :
    (mainRun env T).1 = stepStatus env tAb dF ∧
    (∀ e ∈ (mainRun env T).2, isCleanupEv e = false) ∧
    (∀ e ∈ (mainRun env T).2, isValidateEv e = false) ∧
    (∀ d2 t2, Ev.pushStepCall d2 t2 ∈ (mainRun env T).2 → t2 ≤ tAb) := by
  obtain ⟨trI, trT, hmain, hInitEv, hTickEv, hPush⟩ :=
    mainRun_abort_core env T tAb dF hdc hn hinit hclean hT hdF hfail hleast
  rw [hmain]
  refine ⟨rfl, ?_, ?_, ?_⟩
  · intro e he
    rcases List.mem_append.mp he with h | h
    · rcases List.mem_append.mp h with h2 | h2
      · simp only [List.mem_cons, List.not_mem_nil, or_false] at h2
        rcases h2 with rfl | rfl | rfl | rfl <;> rfl
      · exact (hInitEv e h2).1
    · exact (hTickEv e h).1
  · intro e he
    rcases List.mem_append.mp he with h | h
    · rcases List.mem_append.mp h with h2 | h2
      · simp only [List.mem_cons, List.not_mem_nil, or_false] at h2
        rcases h2 with rfl | rfl | rfl | rfl <;> rfl
      · exact (hInitEv e h2).2.1
    · exact (hTickEv e h).2
  · intro d2 t2 hmem
    rcases List.mem_append.mp hmem with h | h
    · rcases List.mem_append.mp h with h2 | h2
      · simp at h2
      · exact absurd (hInitEv _ h2).2.2 (by simp [isStepEv])
    · exact hPush d2 t2 h

/-- Witness for `abort_skips_cleanup`: one device, kernel failing at tick 0. -/
theorem abort_skips_cleanup_inst :
    (mainRun envKernelFail 10).1 = stepStatus envKernelFail 0 0 :=
  (abort_skips_cleanup envKernelFail 10 0 0 rfl (by decide) (by decide)
    (fun t2 ht2 => absurd ht2 (Nat.not_lt_zero t2)) (by decide) (by decide) (by decide)
    (fun k hk => absurd hk (Nat.not_lt_zero k))).1

/-- Claim C10: when several devices hold a non-zero last-status at a single
tick join (tick `tAb`), the program's exit status is the status of the
failing device with the lowest device index (`dF`, with all lower indices
clean), because the join inspects the per-device statuses in increasing
device-index order. -/
theorem join_lowest_index_wins (env : Env) (T tAb dF : Nat)
    (hdc : env.devCountStat = 0) (hn : env.devCount ≠ 0)
    (hinit : ∀ k, k < env.devCount → initOK env k)
    (hclean : ∀ t2, t2 < tAb → ∀ k, k < env.devCount → stepStatus env t2 k = 0)
    (hT : tAb < T) (hdF : dF < env.devCount)
    (hfail : stepStatus env tAb dF ≠ 0)
    (hleast : ∀ k, k < dF → stepStatus env tAb k = 0) :
    (mainRun env T).1 = stepStatus env tAb dF := by
  obtain ⟨trI, trT, hmain, _, _, _⟩ :=
    mainRun_abort_core env T tAb dF hdc hn hinit hclean hT hdF hfail hleast
  rw [hmain]

/-- Witness for `join_lowest_index_wins`: two devices fail at tick 0 with
different statuses (device 0 with 9, device 1 with 5); the exit status is
device 0's. -/
theorem join_lowest_index_wins_inst :
    (mainRun envTwoFail 10).1 = stepStatus envTwoFail 0 0 ∧
    stepStatus envTwoFail 0 0 = 9 ∧ stepStatus envTwoFail 0 1 = 5 :=
  ⟨join_lowest_index_wins envTwoFail 10 0 0 rfl (by decide) (by decide)
      (fun t2 ht2 => absurd ht2 (Nat.not_lt_zero t2)) (by decide) (by decide) (by decide)
      (fun k hk => absurd hk (Nat.not_lt_zero k)),
    rfl, rfl⟩

/-- Membership in the stderr projection of a trace. -/
theorem mem_stderrOf (tr : List Ev) (l : ErrLine) : l ∈ stderrOf tr ↔ Ev.err l ∈ tr := by
  unfold stderrOf
  rw [List.mem_filterMap]
  constructor
  · rintro ⟨e, he, heq⟩
    cases e <;>
      first
      | (simp only [Option.some.injEq] at heq
         subst heq
         exact he)
      | simp at heq
  · intro h
    exact ⟨Ev.err l, h, rfl⟩

/-- Shape of an ordinary per-device failure line. -/
theorem errOK_perdevice (op : String) (d s : Nat) (hs : s ≠ 0)
    (hop1 : op ≠ opDestroy) (hop2 : op ≠ opDevCount) : ErrOK ⟨op, some d, some s⟩ :=
  ⟨fun h => absurd h hop1, fun h => absurd h hop2, fun _ _ => ⟨⟨d, rfl⟩, s, rfl, hs⟩⟩

/-- Shape of the destroy failure line: no status formatted. -/
theorem errOK_destroy (d : Nat) : ErrOK ⟨opDestroy, some d, none⟩ :=
  ⟨fun _ => ⟨⟨d, rfl⟩, rfl⟩,
   fun h => absurd h (show opDestroy ≠ opDevCount by decide),
   fun h _ => absurd rfl h⟩

/-- Shape of the discovery failure line: no device formatted. -/
theorem errOK_devcount (s : Nat) (hs : s ≠ 0) : ErrOK ⟨opDevCount, none, some s⟩ :=
  ⟨fun h => absurd h (show opDevCount ≠ opDestroy by decide),
   fun _ => ⟨rfl, s, rfl, hs⟩, fun _ h => absurd rfl h⟩

/-- Every stderr line of a `thread_func` invocation is well-shaped. -/
theorem thread_func_errs (env : Env) (t : Nat) (c : Config) :
    ∀ l, Ev.err l ∈ (thread_func env t c).2.2 → ErrOK l := by
  by_cases h1 : env.pushStep c.idevice t = 0 <;>
    by_cases h2 : env.gpuStat c.idevice t = 0 <;>
      by_cases h3 : env.popStep c.idevice t = 0 <;>
        (intro l hl
         simp [thread_func, h1, h2, h3] at hl
         try subst hl
         try exact errOK_perdevice _ _ _ (by assumption) (by decide) (by decide))

/-- Every stderr line of the fan-out is well-shaped. -/
theorem gpuSection_errs (env : Env) (t : Nat) : ∀ cs : List Config,
    ∀ l, Ev.err l ∈ (gpuSection env t cs).2 → ErrOK l := by
  intro cs
  induction cs with
  | nil => intro l hl; exact absurd hl (List.not_mem_nil _)
  | cons c rest ih =>
    intro l hl
    have hl2 : Ev.err l ∈ (thread_func env t c).2.2 ++ (gpuSection env t rest).2 := hl
    rcases List.mem_append.mp hl2 with h | h
    · exact thread_func_errs env t c l h
    · exact ih l h

/-- Every stderr line of the join is well-shaped. -/
theorem joinCheck_errs : ∀ (cs : List Config) (i : Nat),
    ∀ l, Ev.err l ∈ (joinCheck i cs).2 → ErrOK l := by
  intro cs
  induction cs with
  | nil => intro i l hl; exact absurd hl (List.not_mem_nil _)
  | cons c rest ih =>
    intro i l hl
    by_cases h : c.status = 0
    · have hred : joinCheck i (c :: rest) = joinCheck (i + 1) rest := by
        simp [joinCheck, h]
      rw [hred] at hl
      exact ih (i + 1) l hl
    · have hred : (joinCheck i (c :: rest)).2 =
          [Ev.err ⟨opThreadFunc, some i, some c.status⟩] := by
        simp [joinCheck, h]
      rw [hred] at hl
      simp only [List.mem_singleton, Ev.err.injEq] at hl
      subst hl
      exact errOK_perdevice _ _ _ h (by decide) (by decide)

/-- Every stderr line of one tick is well-shaped. -/
theorem tickOnce_errs (env : Env) (t : Nat) (cs : List Config) :
    ∀ l, Ev.err l ∈ (tickOnce env t cs).2.1 → ErrOK l := by
  intro l hl
  have hl2 : Ev.err l ∈ (gpuSection env t cs).2 ++ [Ev.cpuKernelCall t] ++
      (joinCheck 0 (gpuSection env t cs).1).2 := hl
  rcases List.mem_append.mp hl2 with h | h
  · rcases List.mem_append.mp h with h2 | h2
    · exact gpuSection_errs env t cs l h2
    · simp at h2
  · exact joinCheck_errs (gpuSection env t cs).1 0 l h

/-- Every stderr line of the step loop is well-shaped. -/
theorem tickLoop_errs (env : Env) : ∀ (n t : Nat) (cs : List Config),
    ∀ l, Ev.err l ∈ (tickLoop env t n cs).2.1 → ErrOK l := by
  intro n
  induction n with
  | zero => intro t cs l hl; exact absurd hl (List.not_mem_nil _)
  | succ m ih =>
    intro t cs l hl
    rcases habort : (tickOnce env t cs).2.2 with _ | s
    · simp only [tickLoop, habort] at hl
      rcases List.mem_append.mp hl with h | h
      · exact tickOnce_errs env t cs l h
      · exact ih (t + 1) (tickOnce env t cs).1 l h
    · simp only [tickLoop, habort] at hl
      exact tickOnce_errs env t cs l hl

/-- Every stderr line of a per-device initialization is well-shaped. -/
theorem initDevice_errs (env : Env) (d : Nat) :
    ∀ l, Ev.err l ∈ (initDevice env d).2.1 → ErrOK l := by
  unfold initDevice
  split_ifs <;>
    (intro l hl
     simp at hl
     try subst hl
     try exact errOK_perdevice _ _ _ (by assumption) (by decide) (by decide))

/-- Every stderr line of the init loop is well-shaped. -/
theorem initFrom_errs (env : Env) : ∀ (n d : Nat),
    ∀ l, Ev.err l ∈ (initFrom env d n).2.1 → ErrOK l := by
  intro n
  induction n with
  | zero => intro d l hl; exact absurd hl (List.not_mem_nil _)
  | succ m ih =>
    intro d l hl
    rcases habort : (initDevice env d).2.2 with _ | s
    · simp only [initFrom, habort] at hl
      rcases List.mem_append.mp hl with h | h
      · exact initDevice_errs env d l h
      · exact ih (d + 1) l h
    · simp only [initFrom, habort] at hl
      exact initDevice_errs env d l hl

/-- Every stderr line of a per-device cleanup is well-shaped; in particular
the destroy failure line carries no status. -/
theorem finDevice_errs (env : Env) (d : Nat) :
    ∀ l, Ev.err l ∈ (finDevice env d).1 → ErrOK l := by
  unfold finDevice
  split_ifs <;>
    (intro l hl
     simp at hl
     try subst hl
     try exact errOK_perdevice _ _ _ (by assumption) (by decide) (by decide)
     try exact errOK_destroy d)

/-- Every stderr line of the cleanup loop is well-shaped. -/
theorem finFrom_errs (env : Env) : ∀ (n d : Nat),
    ∀ l, Ev.err l ∈ (finFrom env d n).1 → ErrOK l := by
  intro n
  induction n with
  | zero => intro d l hl; exact absurd hl (List.not_mem_nil _)
  | succ m ih =>
    intro d l hl
    rcases habort : (finDevice env d).2 with _ | s
    · simp only [finFrom, habort] at hl
      rcases List.mem_append.mp hl with h | h
      · exact finDevice_errs env d l h
      · exact ih (d + 1) l h
    · simp only [finFrom, habort] at hl
      exact finDevice_errs env d l hl

/-- The validation loop emits no stderr lines. -/
theorem valEvents_errs : ∀ n l, Ev.err l ∈ valEvents n → False := by
  intro n
  induction n with
  | zero => intro l hl; exact absurd hl (List.not_mem_nil _)
  | succ m ih =>
    intro l hl
    have hl2 : Ev.err l ∈ valEvents m ++ [Ev.validateCall m, Ev.out (OutLine.result m)] := hl
    rcases List.mem_append.mp hl2 with h | h
    · exact ih l h
    · simp at h

/-- Every stderr line the program emits is well-shaped. -/
theorem mainRun_errs (env : Env) (T : Nat) : ∀ l, Ev.err l ∈ (mainRun env T).2 → ErrOK l := by
  intro l hl
  by_cases hdc : env.devCountStat = 0
  · by_cases hn : env.devCount = 0
    · have hmain : mainRun env T = (0, [Ev.devCountCall, Ev.out (OutLine.found 0)]) := by
        simp [mainRun, hdc, hn]
      rw [hmain] at hl
      simp at hl
    · rcases hI : initFrom env 0 env.devCount with ⟨csI, trI, rI⟩
      rcases rI with _ | sI
      · rcases hT : tickLoop env 0 T csI with ⟨csT, trT, rT⟩
        rcases rT with _ | sT
        · rcases hF : finFrom env 0 env.devCount with ⟨trF, rF⟩
          rcases rF with _ | sF
          · have hmain : mainRun env T = (0,
                [Ev.devCountCall, Ev.out (OutLine.found env.devCount),
                 Ev.out (OutLine.threads env.nthreads),
                 Ev.hostAlloc ((env.devCount + 2) * (nx * ny))] ++
                trI ++ trT ++ trF ++ valEvents env.devCount) := by
              simp [mainRun, hdc, hn, hI, hT, hF]
            rw [hmain] at hl
            rcases List.mem_append.mp hl with h | h
            · rcases List.mem_append.mp h with h2 | h2
              · rcases List.mem_append.mp h2 with h3 | h3
                · rcases List.mem_append.mp h3 with h4 | h4
                  · simp at h4
                  · have h5 := initFrom_errs env env.devCount 0 l
                    rw [hI] at h5
                    exact h5 h4
                · have h5 := tickLoop_errs env T 0 csI l
                  rw [hT] at h5
                  exact h5 h3
              · have h5 := finFrom_errs env env.devCount 0 l
                rw [hF] at h5
                exact h5 h2
            · exact absurd h (fun h2 => valEvents_errs env.devCount l h2)
          · have hmain : mainRun env T = (sF,
                [Ev.devCountCall, Ev.out (OutLine.found env.devCount),
                 Ev.out (OutLine.threads env.nthreads),
                 Ev.hostAlloc ((env.devCount + 2) * (nx * ny))] ++
                trI ++ trT ++ trF) := by
              simp [mainRun, hdc, hn, hI, hT, hF]
            rw [hmain] at hl
            rcases List.mem_append.mp hl with h | h
            · rcases List.mem_append.mp h with h2 | h2
              · rcases List.mem_append.mp h2 with h3 | h3
                · simp at h3
                · have h5 := initFrom_errs env env.devCount 0 l
                  rw [hI] at h5
                  exact h5 h3
              · have h5 := tickLoop_errs env T 0 csI l
                rw [hT] at h5
                exact h5 h2
            · have h5 := finFrom_errs env env.devCount 0 l
              rw [hF] at h5
              exact h5 h
        · have hmain : mainRun env T = (sT,
              [Ev.devCountCall, Ev.out (OutLine.found env.devCount),
               Ev.out (OutLine.threads env.nthreads),
               Ev.hostAlloc ((env.devCount + 2) * (nx * ny))] ++
              trI ++ trT) := by
            simp [mainRun, hdc, hn, hI, hT]
          rw [hmain] at hl
          rcases List.mem_append.mp hl with h | h
          · rcases List.mem_append.mp h with h2 | h2
            · simp at h2
            · have h5 := initFrom_errs env env.devCount 0 l
              rw [hI] at h5
              exact h5 h2
          · have h5 := tickLoop_errs env T 0 csI l
            rw [hT] at h5
            exact h5 h
      · have hmain : mainRun env T = (sI,
            [Ev.devCountCall, Ev.out (OutLine.found env.devCount),
             Ev.out (OutLine.threads env.nthreads),
             Ev.hostAlloc ((env.devCount + 2) * (nx * ny))] ++ trI) := by
          simp [mainRun, hdc, hn, hI]
        rw [hmain] at hl
        rcases List.mem_append.mp hl with h | h
        · simp at h
        · have h5 := initFrom_errs env env.devCount 0 l
          rw [hI] at h5
          exact h5 h
  · have hmain : mainRun env T = (env.devCountStat,
        [Ev.devCountCall, Ev.err ⟨opDevCount, none, some env.devCountStat⟩]) := by
      simp [mainRun, hdc]
    rw [hmain] at hl
    simp only [List.mem_cons, List.not_mem_nil, or_false, Ev.err.injEq] at hl
    rcases hl with hl | hl
    · exact Ev.noConfusion hl
    · subst hl
      exact errOK_devcount _ hdc

/-- Claim C9, counterexample: the only failure of this run is the context
destruction of device 0, with status 7 (the exit status); yet its stderr line
carries no status code - the format string at line 289 formats only the
device index, so the status argument is dropped from the output. -/
theorem stderr_destroy_cex :
    (mainRun envDestroyFail 1).1 = 7 ∧
    envDestroyFail.destroy 0 = 7 ∧
    stderrOf (mainRun envDestroyFail 1).2 = [⟨opDestroy, some 0, none⟩] := by
  refine ⟨by decide, rfl, by decide⟩

/-- Claim C9, amended: every stderr line carries the failing operation name;
per-device failure lines carry the device index and the discovery failure
line does not; every line carries the (non-zero) underlying status code
*except* the context-destruction failure line, which omits it (its format
string has no specifier for the status).  Moreover a step-loop failure
produces a second, join-level stderr line in addition to the executor's line,
as the concrete kernel-failure run shows. -/
theorem stderr_line_contents :
    (∀ (env : Env) (T : Nat), ∀ l ∈ stderrOf (mainRun env T).2, ErrOK l) ∧
    stderrOf (mainRun envKernelFail 10).2 =
      [⟨opGpuKernel, some 0, some 7⟩, ⟨opThreadFunc, some 0, some 7⟩] := by
  constructor
  · intro env T l hl
    exact mainRun_errs env T l ((mem_stderrOf _ _).mp hl)
  · decide

/-- Witness for `stderr_line_contents`: the kernel-failure line of the
concrete run is well-shaped. -/
theorem stderr_line_contents_inst : ErrOK ⟨opGpuKernel, some 0, some 7⟩ :=
  stderr_line_contents.1 envKernelFail 10 ⟨opGpuKernel, some 0, some 7⟩ (by decide)

end OpenmpMultiCuda
